import Mathlib

/-!
Verification of the LFG dungeon-queue simulator (`src/main.cpp`).

The program keeps three signed counters (`tank_queue`, `healer_queue`,
`dps_queue`), a vector of `DungeonInstance` records, and an `active_parties`
counter, all guarded by one global mutex.  A `party_former` loop repeatedly
consumes a (1 tank, 1 healer, 3 dps) recipe, marks the lowest free instance
`"active"`, and spawns a detached `dungeon_run` thread; each `dungeon_run`
later marks its instance `"empty"`, bumps its statistics, and decrements
`active_parties`.

We embed the shared state and the lock-protected critical sections as pure
functions on an explicit state record.  Detached `dungeon_run` threads in
flight are modelled by a list `pending` of their instance ids; the step
relation interleaves scheduler steps with completions of pending runs.
-/

/-- Mirrors `struct DungeonInstance` (src/main.cpp lines 12-19):
`id`, string `status`, `parties_served`, `total_time_served`. -/
structure DungeonInstance where
  id : Int
  status : String
  parties_served : Int
  total_time_served : Int
deriving DecidableEq, Repr

/-- The constructor `DungeonInstance(int i)` : status `"empty"`, zero stats. -/
def DungeonInstance.init (i : Int) : DungeonInstance :=
  { id := i, status := "empty", parties_served := 0, total_time_served := 0 }

/-- An instance is free when its status is the string `"empty"`, exactly the
comparison used by `find_free_instance` (line 206). -/
def DungeonInstance.isFree (d : DungeonInstance) : Bool :=
  d.status = "empty"

/-- The shared mutable state of the program: the three queue counters, the
instance vector and `active_parties`.  The extra field `pending` records the
ids handed to detached `dungeon_run` threads that have not yet completed;
it models the set of in-flight occupancy tasks. -/
structure SimState where
  tank_queue : Int
  healer_queue : Int
  dps_queue : Int
  instances : List DungeonInstance
  active_parties : Int
  pending : List Nat
deriving DecidableEq, Repr

/-- `can_form_party()` (lines 199-201):
`tank_queue >= 1 && healer_queue >= 1 && dps_queue >= 3`. -/
def can_form_party (s : SimState) : Bool :=
  s.tank_queue ≥ 1 && s.healer_queue ≥ 1 && s.dps_queue ≥ 3

/-- Helper for `find_free_instance`: scan the vector from position `k`
returning the absolute index of the first instance whose status is
`"empty"`. -/
def findFreeFrom : List DungeonInstance → Nat → Int
  | [], _ => -1
  | d :: rest, k => if d.isFree then (k : Int) else findFreeFrom rest (k + 1)

/-- `find_free_instance()` (lines 204-211): index of the first instance with
status `"empty"`, or `-1` when none is free. -/
def find_free_instance (l : List DungeonInstance) : Int :=
  findFreeFrom l 0

/-- Replace the element at index `i` by `f` applied to it (out-of-range
indices leave the list unchanged); models `instances[instance_id].field = …`
updates. -/
def modifyInst (f : DungeonInstance → DungeonInstance) :
    List DungeonInstance → Nat → List DungeonInstance
  | [], _ => []
  | d :: rest, 0 => f d :: rest
  | d :: rest, k + 1 => d :: modifyInst f rest k

/-- The consumption step of `party_former` (lines 148-150):
`tank_queue--; healer_queue--; dps_queue -= 3;`. -/
def consume (s : SimState) : SimState :=
  { s with
    tank_queue := s.tank_queue - 1
    healer_queue := s.healer_queue - 1
    dps_queue := s.dps_queue - 3 }

/-- The assignment step of `party_former` (lines 152-154, 164):
`instances[instance_id].status = "active"; active_parties++;` and the spawn
of a detached `dungeon_run` thread for `instance_id`. -/
def assign_party (s : SimState) (iid : Nat) : SimState :=
  { s with
    instances := modifyInst (fun d => { d with status := "active" }) s.instances iid
    active_parties := s.active_parties + 1
    pending := iid :: s.pending }

/-- One full successful formation (`consume` then assign, lines 147-164). -/
def form_party (s : SimState) (iid : Nat) : SimState :=
  assign_party (consume s) iid

/-- Outcome of one wake of the `party_former` loop body. -/
inductive SchedResult where
  | exit
  | formed (iid : Nat)
  | idle
deriving DecidableEq, Repr

/-- The body of the `party_former` loop after the wait returns (lines
138-165): first the exit test `active_parties == 0 && !can_form_party()`,
then the re-derived `find_free_instance()` pick and the guarded
consume-and-assign. -/
def scheduler_wake (s : SimState) : SchedResult × SimState :=
  if s.active_parties = 0 ∧ can_form_party s = false then
    (SchedResult.exit, s)
  else
    let instance_id := find_free_instance s.instances
    if can_form_party s = true ∧ instance_id ≠ -1 then
      (SchedResult.formed instance_id.toNat, form_party s instance_id.toNat)
    else
      (SchedResult.idle, s)

/-- The critical section of `dungeon_run` (lines 178-191): mark the instance
`"empty"`, increment `parties_served`, add the run time to
`total_time_served`, decrement `active_parties`; the detached thread
finishes, so its id leaves `pending`. -/
def dungeon_run_update (s : SimState) (iid : Nat) (t : Int) : SimState :=
  { s with
    instances := modifyInst
      (fun d => { d with
        status := "empty"
        parties_served := d.parties_served + 1
        total_time_served := d.total_time_served + t }) s.instances iid
    active_parties := s.active_parties - 1
    pending := s.pending.erase iid }

/-- The initial pool built by `main` (lines 75-77): `n` instances
`DungeonInstance(0) … DungeonInstance(n-1)`. -/
def initInstances (n : Nat) : List DungeonInstance :=
  (List.range n).map (fun (i : Nat) => DungeonInstance.init (i : Int))

/-- The state after `main`'s initialization: counters read from input,
fresh pool, `active_parties = 0`, no run in flight. -/
def initState (n : Nat) (t h d : Int) : SimState :=
  { tank_queue := t, healer_queue := h, dps_queue := d,
    instances := initInstances n, active_parties := 0, pending := [] }

/-- The two lock-protected transitions of the concurrent program: a
successful scheduler formation (enabled when a party can be formed and a
free instance exists) and the completion of one pending `dungeon_run`. -/
inductive Step : SimState → SimState → Prop
  | assign (s : SimState) :
      can_form_party s = true →
      find_free_instance s.instances ≠ -1 →
      Step s (form_party s (find_free_instance s.instances).toNat)
  | release (s : SimState) (iid : Nat) (t : Int) :
      iid ∈ s.pending →
      Step s (dungeon_run_update s iid t)

/-- States reachable from some initial configuration by `Step`s. -/
inductive Reachable : SimState → Prop
  | init (n : Nat) (t h d : Int) : Reachable (initState n t h d)
  | step {s s' : SimState} : Reachable s → Step s s' → Reachable s'

/-- Number of occupied (non-free) instances in the pool. -/
def occupiedCount : List DungeonInstance → Nat
  | [] => 0
  | d :: rest => (if d.isFree then 0 else 1) + occupiedCount rest

/-- The inductive invariant tying the pool, the in-flight `dungeon_run`
threads and `active_parties` together: pending ids are distinct and point at
occupied instances, and both the occupied count and `active_parties` equal
the number of runs in flight. -/
def PoolInv (s : SimState) : Prop :=
  s.pending.Nodup ∧
  (∀ i ∈ s.pending, ∃ h : i < s.instances.length,
      (s.instances.get ⟨i, h⟩).isFree = false) ∧
  occupiedCount s.instances = s.pending.length ∧
  s.active_parties = (s.pending.length : Int)

/-! ### Basic lemmas about the embedded operations -/

theorem modifyInst_length (f : DungeonInstance → DungeonInstance)
    (l : List DungeonInstance) (i : Nat) :
    (modifyInst f l i).length = l.length := by
  induction l generalizing i with
  | nil => rfl
  | cons d rest ih =>
    cases i with
    | zero => rfl
    | succ k => simp [modifyInst, ih]

theorem get_modifyInst_self (f : DungeonInstance → DungeonInstance)
    (l : List DungeonInstance) (i : Nat) (h : i < l.length)
    (h' : i < (modifyInst f l i).length) :
    (modifyInst f l i).get ⟨i, h'⟩ = f (l.get ⟨i, h⟩) := by
  induction l generalizing i with
  | nil => exact absurd h (Nat.not_lt_zero i)
  | cons d rest ih =>
    cases i with
    | zero => rfl
    | succ k =>
      simp only [modifyInst, List.get]
      exact ih k (Nat.lt_of_succ_lt_succ h) _

theorem get_modifyInst_ne (f : DungeonInstance → DungeonInstance)
    (l : List DungeonInstance) (i j : Nat) (hj : j < l.length)
    (hne : j ≠ i) (hj' : j < (modifyInst f l i).length) :
    (modifyInst f l i).get ⟨j, hj'⟩ = l.get ⟨j, hj⟩ := by
  induction l generalizing i j with
  | nil => exact absurd hj (Nat.not_lt_zero j)
  | cons d rest ih =>
    cases i with
    | zero =>
      cases j with
      | zero => exact absurd rfl hne
      | succ m => rfl
    | succ k =>
      cases j with
      | zero => rfl
      | succ m =>
        simp only [modifyInst, List.get]
        exact ih k m (Nat.lt_of_succ_lt_succ hj) (fun hc => hne (by omega)) _

theorem occupiedCount_modify_occupy (f : DungeonInstance → DungeonInstance)
    (l : List DungeonInstance) (i : Nat) (h : i < l.length)
    (hfree : (l.get ⟨i, h⟩).isFree = true)
    (hf : (f (l.get ⟨i, h⟩)).isFree = false) :
    occupiedCount (modifyInst f l i) = occupiedCount l + 1 := by
  induction l generalizing i with
  | nil => exact absurd h (Nat.not_lt_zero i)
  | cons d rest ih =>
    cases i with
    | zero =>
      simp only [List.get] at hfree hf
      simp [modifyInst, occupiedCount, hfree, hf, Nat.add_comm]
    | succ k =>
      simp only [List.get] at hfree hf
      have := ih k (Nat.lt_of_succ_lt_succ h) hfree hf
      simp only [modifyInst, occupiedCount]
      omega

theorem occupiedCount_modify_free (f : DungeonInstance → DungeonInstance)
    (l : List DungeonInstance) (i : Nat) (h : i < l.length)
    (hocc : (l.get ⟨i, h⟩).isFree = false)
    (hf : (f (l.get ⟨i, h⟩)).isFree = true) :
    occupiedCount (modifyInst f l i) + 1 = occupiedCount l := by
  induction l generalizing i with
  | nil => exact absurd h (Nat.not_lt_zero i)
  | cons d rest ih =>
    cases i with
    | zero =>
      simp only [List.get] at hocc hf
      simp [modifyInst, occupiedCount, hocc, hf, Nat.add_comm]
    | succ k =>
      simp only [List.get] at hocc hf
      have := ih k (Nat.lt_of_succ_lt_succ h) hocc hf
      simp only [modifyInst, occupiedCount]
      omega

/-- Full characterisation of the scan in `find_free_instance`: either no
instance is free and the scan yields `-1`, or it yields the absolute index of
the first free instance. -/
theorem findFreeFrom_spec (l : List DungeonInstance) (k : Nat) :
    (findFreeFrom l k = -1 ∧ ∀ d ∈ l, d.isFree = false) ∨
    (∃ j : Nat, ∃ hj : j < l.length,
      findFreeFrom l k = ((k + j : Nat) : Int) ∧
      (l.get ⟨j, hj⟩).isFree = true ∧
      ∀ m, (hm : m < j) → (l.get ⟨m, Nat.lt_trans hm hj⟩).isFree = false) := by
  induction l generalizing k with
  | nil => exact Or.inl ⟨rfl, fun d hd => absurd hd (List.not_mem_nil d)⟩
  | cons d rest ih =>
    by_cases hd : d.isFree = true
    · refine Or.inr ⟨0, Nat.succ_pos rest.length, ?_, hd, ?_⟩
      · simp [findFreeFrom, hd]
      · intro m hm
        exact absurd hm (Nat.not_lt_zero m)
    · have hd' : d.isFree = false := by
        cases hb : d.isFree
        · rfl
        · exact absurd hb hd
      rcases ih (k + 1) with ⟨heq, hall⟩ | ⟨j, hj, heq, hfree, hmin⟩
      · refine Or.inl ⟨?_, ?_⟩
        · simp [findFreeFrom, hd', heq]
        · intro e he
          rcases List.mem_cons.mp he with rfl | he'
          · exact hd'
          · exact hall e he'
      · refine Or.inr ⟨j + 1, Nat.succ_lt_succ hj, ?_, hfree, ?_⟩
        · have hc : ((k + 1 + j : Nat) : Int) = ((k + (j + 1) : Nat) : Int) := by
            push_cast; ring
          simp only [findFreeFrom, hd']
          rw [if_neg Bool.false_ne_true, heq]
          exact hc
        · intro m hm
          cases m with
          | zero => exact hd'
          | succ m' => exact hmin m' (Nat.lt_of_succ_lt_succ hm)

/-- When `find_free_instance` does not return `-1`, its result (as a `Nat`)
is a valid index of a free instance. -/
theorem find_free_valid (l : List DungeonInstance)
    (h : find_free_instance l ≠ -1) :
    ∃ hl : (find_free_instance l).toNat < l.length,
      (l.get ⟨(find_free_instance l).toNat, hl⟩).isFree = true := by
  rcases findFreeFrom_spec l 0 with ⟨heq, _⟩ | ⟨j, hj, heq, hfree, _⟩
  · exact absurd heq h
  · have hval : find_free_instance l = (j : Int) := by
      simpa [find_free_instance] using heq
    have htn : (find_free_instance l).toNat = j := by
      rw [hval]; exact Int.toNat_natCast j
    refine ⟨htn ▸ hj, ?_⟩
    have : l.get ⟨(find_free_instance l).toNat, htn ▸ hj⟩ = l.get ⟨j, hj⟩ := by
      congr 1
      exact Fin.ext htn
    rw [this]; exact hfree

/-- If no instance is free the scan returns `-1`. -/
theorem find_free_none (l : List DungeonInstance)
    (h : ∀ d ∈ l, d.isFree = false) : find_free_instance l = -1 := by
  rcases findFreeFrom_spec l 0 with ⟨heq, _⟩ | ⟨j, hj, heq, hfree, _⟩
  · simpa [find_free_instance] using heq
  · have hd := h _ (List.get_mem l j hj)
    rw [hd] at hfree
    cases hfree

/-- The scan returns the index of the first free instance. -/
theorem find_free_at (l : List DungeonInstance) (j : Nat) (hj : j < l.length)
    (hfree : (l.get ⟨j, hj⟩).isFree = true)
    (hmin : ∀ m, (hm : m < j) → (l.get ⟨m, Nat.lt_trans hm hj⟩).isFree = false) :
    find_free_instance l = (j : Int) := by
  rcases findFreeFrom_spec l 0 with ⟨heq, hall⟩ | ⟨j', hj', heq, hfree', hmin'⟩
  · have hd := hall _ (List.get_mem l j hj)
    rw [hd] at hfree
    cases hfree
  · have hjj : j = j' := by
      by_contra hne
      rcases Nat.lt_or_ge j j' with hlt | hge
      · have := hmin' j hlt
        rw [this] at hfree
        cases hfree
      · have hlt : j' < j := by omega
        have := hmin j' hlt
        rw [this] at hfree'
        cases hfree'
    subst hjj
    simpa [find_free_instance] using heq

/-! ### Claim theorems -/

/-- C1: one wake of the `party_former` loop body exits if and only if the
quiescence predicate `active_parties == 0 && !can_form_party()` holds at
that wake; in particular with `active_parties > 0` the loop never exits,
even when no party can be formed. -/
theorem scheduler_exit_iff (s : SimState) :
    (scheduler_wake s).1 = SchedResult.exit ↔
      (s.active_parties = 0 ∧ can_form_party s = false) := by
  unfold scheduler_wake
  by_cases h : s.active_parties = 0 ∧ can_form_party s = false
  · simp [h]
  · rw [if_neg h]
    by_cases h2 : can_form_party s = true ∧ find_free_instance s.instances ≠ -1
    · rw [if_pos h2]
      constructor
      · intro hc
        exact SchedResult.noConfusion hc
      · intro hc
        exact absurd hc h
    · rw [if_neg h2]
      constructor
      · intro hc
        exact SchedResult.noConfusion hc
      · intro hc
        exact absurd hc h

/-- C2: under the precondition `can_form_party()`, the consumption step
subtracts exactly the recipe (1 tank, 1 healer, 3 dps) and leaves all three
counters non-negative. -/
theorem consume_spec (s : SimState) (h : can_form_party s = true) :
    (consume s).tank_queue = s.tank_queue - 1 ∧
    (consume s).healer_queue = s.healer_queue - 1 ∧
    (consume s).dps_queue = s.dps_queue - 3 ∧
    0 ≤ (consume s).tank_queue ∧
    0 ≤ (consume s).healer_queue ∧
    0 ≤ (consume s).dps_queue := by
  simp only [can_form_party, Bool.and_eq_true, decide_eq_true_eq] at h
  refine ⟨rfl, rfl, rfl, ?_, ?_, ?_⟩
  · show 0 ≤ s.tank_queue - 1
    omega
  · show 0 ≤ s.healer_queue - 1
    omega
  · show 0 ≤ s.dps_queue - 3
    omega

theorem consume_spec_witness :
    can_form_party (initState 2 1 1 3) = true ∧
    ((consume (initState 2 1 1 3)).tank_queue = 0 ∧
      0 ≤ (consume (initState 2 1 1 3)).dps_queue) := by
  refine ⟨by decide, ?_, ?_⟩
  · have h := consume_spec (initState 2 1 1 3) (by decide)
    rw [h.1]
    decide
  · exact (consume_spec (initState 2 1 1 3) (by decide)).2.2.2.2.2

/-- C3: `can_form_party()` is true exactly when every counter is at least
its recipe amount (tank ≥ 1, healer ≥ 1, dps ≥ 3); as a pure function of
the state it has no side effect. -/
theorem can_form_party_iff (s : SimState) :
    can_form_party s = true ↔
      (s.tank_queue ≥ 1 ∧ s.healer_queue ≥ 1 ∧ s.dps_queue ≥ 3) := by
  simp [can_form_party, Bool.and_eq_true, decide_eq_true_eq, and_assoc]

/-- C6: `find_free_instance` returns `-1` exactly when no instance is free,
and otherwise returns the position of the lowest free instance — which is
that instance's id whenever ids coincide with positions, as in every pool
the program builds; it is a pure read. -/
theorem find_free_instance_correct (l : List DungeonInstance) :
    ((∀ d ∈ l, d.isFree = false) → find_free_instance l = -1) ∧
    (∀ j, (hj : j < l.length) → (l.get ⟨j, hj⟩).isFree = true →
      (∀ m, (hm : m < j) → (l.get ⟨m, Nat.lt_trans hm hj⟩).isFree = false) →
      find_free_instance l = (j : Int) ∧
      ((l.get ⟨j, hj⟩).id = (j : Int) →
        find_free_instance l = (l.get ⟨j, hj⟩).id)) := by
  refine ⟨find_free_none l, fun j hj hfree hmin => ?_⟩
  have h := find_free_at l j hj hfree hmin
  exact ⟨h, fun hid => by rw [h, hid]⟩

theorem find_free_instance_correct_witness :
    find_free_instance [DungeonInstance.init 0] = 0 ∧
    find_free_instance [{ DungeonInstance.init 0 with status := "active" }] = -1 := by
  constructor
  · exact ((find_free_instance_correct [DungeonInstance.init 0]).2 0 (by decide)
      (by decide) (fun m hm => absurd hm (Nat.not_lt_zero m))).1
  · exact (find_free_instance_correct
      [{ DungeonInstance.init 0 with status := "active" }]).1 (by decide)

/-- C9 (Scenario C): with `n = 1` and supply `(0, 1, 3)` no party can ever
be formed, no party is active, the very first scheduler wake exits leaving
the state untouched, the lone instance has served zero parties, and the
residual counters are still `(0, 1, 3)`. -/
theorem scenarioC_immediate_quiescence :
    can_form_party (initState 1 0 1 3) = false ∧
    (initState 1 0 1 3).active_parties = 0 ∧
    scheduler_wake (initState 1 0 1 3) = (SchedResult.exit, initState 1 0 1 3) ∧
    (initState 1 0 1 3).instances = [DungeonInstance.init 0] ∧
    (DungeonInstance.init 0).parties_served = 0 ∧
    (DungeonInstance.init 0).total_time_served = 0 ∧
    (initState 1 0 1 3).tank_queue = 0 ∧
    (initState 1 0 1 3).healer_queue = 1 ∧
    (initState 1 0 1 3).dps_queue = 3 := by
  decide

/-- The instance a completed run updates, in closed form. -/
theorem dungeon_run_get (s : SimState) (iid : Nat) (t : Int)
    (h : iid < s.instances.length)
    (h' : iid < (dungeon_run_update s iid t).instances.length) :
    (dungeon_run_update s iid t).instances.get ⟨iid, h'⟩
      = { s.instances.get ⟨iid, h⟩ with
          status := "empty"
          parties_served := (s.instances.get ⟨iid, h⟩).parties_served + 1
          total_time_served := (s.instances.get ⟨iid, h⟩).total_time_served + t } :=
  get_modifyInst_self _ s.instances iid h h'

/-- Instances other than the released one are untouched by a completion. -/
theorem dungeon_run_get_ne (s : SimState) (iid : Nat) (t : Int) (j : Nat)
    (hj : j < s.instances.length) (hne : j ≠ iid)
    (hj' : j < (dungeon_run_update s iid t).instances.length) :
    (dungeon_run_update s iid t).instances.get ⟨j, hj'⟩
      = s.instances.get ⟨j, hj⟩ :=
  get_modifyInst_ne _ s.instances iid j hj hne hj'

/-- The instance a formation assigns, in closed form. -/
theorem form_party_get (s : SimState) (iid : Nat)
    (h : iid < s.instances.length)
    (h' : iid < (form_party s iid).instances.length) :
    (form_party s iid).instances.get ⟨iid, h'⟩
      = { s.instances.get ⟨iid, h⟩ with status := "active" } :=
  get_modifyInst_self _ s.instances iid h h'

/-- Instances other than the assigned one are untouched by a formation. -/
theorem form_party_get_ne (s : SimState) (iid : Nat) (j : Nat)
    (hj : j < s.instances.length) (hne : j ≠ iid)
    (hj' : j < (form_party s iid).instances.length) :
    (form_party s iid).instances.get ⟨j, hj'⟩ = s.instances.get ⟨j, hj⟩ :=
  get_modifyInst_ne _ s.instances iid j hj hne hj'

/-- C4: completing a run on an Occupied instance frees it, increments its
`parties_served` by exactly 1, adds exactly the run time to
`total_time_served`, and decrements `active_parties` by exactly 1. -/
theorem release_spec (s : SimState) (iid : Nat) (t : Int)
    (h : iid < s.instances.length)
    (hocc : (s.instances.get ⟨iid, h⟩).isFree = false) :
    ∃ h' : iid < (dungeon_run_update s iid t).instances.length,
      ((dungeon_run_update s iid t).instances.get ⟨iid, h'⟩).isFree = true ∧
      ((dungeon_run_update s iid t).instances.get ⟨iid, h'⟩).parties_served
        = (s.instances.get ⟨iid, h⟩).parties_served + 1 ∧
      ((dungeon_run_update s iid t).instances.get ⟨iid, h'⟩).total_time_served
        = (s.instances.get ⟨iid, h⟩).total_time_served + t ∧
      (dungeon_run_update s iid t).active_parties = s.active_parties - 1 := by
  have hlen : (dungeon_run_update s iid t).instances.length
      = s.instances.length := modifyInst_length _ s.instances iid
  refine ⟨hlen ▸ h, ?_, ?_, ?_, rfl⟩ <;>
    rw [dungeon_run_get s iid t h] <;>
    simp [DungeonInstance.isFree]

theorem release_spec_witness :
    (dungeon_run_update (form_party (initState 1 1 1 3) 0) 0 7).active_parties
        = (form_party (initState 1 1 1 3) 0).active_parties - 1 ∧
    (∃ h' : 0 < (dungeon_run_update (form_party (initState 1 1 1 3) 0) 0 7).instances.length,
      ((dungeon_run_update (form_party (initState 1 1 1 3) 0) 0 7).instances.get
        ⟨0, h'⟩).isFree = true) := by
  obtain ⟨h', hfree, _, _, hact⟩ :=
    release_spec (form_party (initState 1 1 1 3) 0) 0 7 (by decide) (by decide)
  exact ⟨hact, h', hfree⟩

/-- C8 counterexample: the code has no fatal path.  Releasing the already
Free instance of `initState 1 0 0 0` silently performs the whole update
(statistics bumped, `active_parties` driven to `-1`), and a consume from an
empty queue silently drives `tank_queue` to `-1`; neither operation aborts
or signals a fault. -/
theorem violation_not_fatal_cex :
    (dungeon_run_update (initState 1 0 0 0) 0 5).instances
      = [{ id := 0, status := "empty", parties_served := 1, total_time_served := 5 }] ∧
    (dungeon_run_update (initState 1 0 0 0) 0 5).active_parties = -1 ∧
    (consume (initState 1 0 0 0)).tank_queue = -1 := by
  decide

/-- C8 amended: internal invariant violations are not fatal: the operations
are total and silently perform the state change.  Releasing an already-Free
instance still increments its statistics and decrements `active_parties`,
and `consume` subtracts unconditionally with no negativity check. -/
theorem violations_silently_tolerated (s : SimState) (iid : Nat) (t : Int)
    (h : iid < s.instances.length)
    (hfree : (s.instances.get ⟨iid, h⟩).isFree = true) :
    (∃ h' : iid < (dungeon_run_update s iid t).instances.length,
      ((dungeon_run_update s iid t).instances.get ⟨iid, h'⟩).parties_served
        = (s.instances.get ⟨iid, h⟩).parties_served + 1 ∧
      ((dungeon_run_update s iid t).instances.get ⟨iid, h'⟩).isFree = true) ∧
    (dungeon_run_update s iid t).active_parties = s.active_parties - 1 ∧
    (consume s).tank_queue = s.tank_queue - 1 := by
  have hlen : (dungeon_run_update s iid t).instances.length
      = s.instances.length := modifyInst_length _ s.instances iid
  refine ⟨⟨hlen ▸ h, ?_, ?_⟩, rfl, rfl⟩ <;>
    rw [dungeon_run_get s iid t h] <;>
    simp [DungeonInstance.isFree]

theorem violations_silently_tolerated_witness :
    ((initState 1 0 0 0).instances.get ⟨0, by decide⟩).isFree = true ∧
    (dungeon_run_update (initState 1 0 0 0) 0 5).active_parties
      = (initState 1 0 0 0).active_parties - 1 := by
  obtain ⟨_, hact, _⟩ :=
    violations_silently_tolerated (initState 1 0 0 0) 0 5 (by decide) (by decide)
  exact ⟨by decide, hact⟩

/-! ### The pool invariant -/

theorem initInstances_all_free (n : Nat) :
    ∀ d ∈ initInstances n, d.isFree = true := by
  intro d hd
  rcases List.mem_map.mp hd with ⟨i, _, rfl⟩
  rfl

theorem occupiedCount_eq_zero (l : List DungeonInstance)
    (h : ∀ d ∈ l, d.isFree = true) : occupiedCount l = 0 := by
  induction l with
  | nil => rfl
  | cons d rest ih =>
    have hd := h d (List.mem_cons_self d rest)
    have hr := ih (fun e he => h e (List.mem_cons_of_mem d he))
    simp [occupiedCount, hd, hr]

theorem poolInv_init (n : Nat) (t h d : Int) : PoolInv (initState n t h d) := by
  refine ⟨List.nodup_nil, ?_, ?_, rfl⟩
  · intro i hi
    exact absurd hi (List.not_mem_nil i)
  · exact occupiedCount_eq_zero _ (initInstances_all_free n)

theorem poolInv_step {s s' : SimState} (hinv : PoolInv s) (hstep : Step s s') :
    PoolInv s' := by
  obtain ⟨hnd, hpt, hoc, hac⟩ := hinv
  cases hstep with
  | assign hcan hff =>
    obtain ⟨hl, hfree⟩ := find_free_valid s.instances hff
    have hnotmem : (find_free_instance s.instances).toNat ∉ s.pending := by
      intro hmem
      obtain ⟨hlt, hocc⟩ := hpt _ hmem
      rw [hocc] at hfree
      cases hfree
    have hlen : (form_party s (find_free_instance s.instances).toNat).instances.length
        = s.instances.length :=
      modifyInst_length _ s.instances (find_free_instance s.instances).toNat
    refine ⟨List.nodup_cons.mpr ⟨hnotmem, hnd⟩, ?_, ?_, ?_⟩
    · intro i hi
      rcases List.mem_cons.mp hi with rfl | hi'
      · refine ⟨hlen ▸ hl, ?_⟩
        rw [form_party_get s _ hl]
        rfl
      · obtain ⟨hlt2, hocc2⟩ := hpt i hi'
        have hne : i ≠ (find_free_instance s.instances).toNat := by
          intro hc
          subst hc
          rw [hocc2] at hfree
          cases hfree
        refine ⟨hlen ▸ hlt2, ?_⟩
        rw [form_party_get_ne s (find_free_instance s.instances).toNat i hlt2 hne]
        exact hocc2
    · have hstep1 : occupiedCount
          (form_party s (find_free_instance s.instances).toNat).instances
          = occupiedCount s.instances + 1 :=
        occupiedCount_modify_occupy _ s.instances _ hl hfree rfl
      rw [hstep1, hoc]
      rfl
    · show s.active_parties + 1
        = (((find_free_instance s.instances).toNat :: s.pending).length : Int)
      rw [hac]
      push_cast [List.length_cons]
      ring
  | release iid t hmem =>
    obtain ⟨hlt, hocc⟩ := hpt iid hmem
    have hlen1 : 1 ≤ s.pending.length :=
      List.length_pos.mpr (List.ne_nil_of_mem hmem)
    have herase : (s.pending.erase iid).length = s.pending.length - 1 :=
      List.length_erase_of_mem hmem
    have hlen : (dungeon_run_update s iid t).instances.length
        = s.instances.length := modifyInst_length _ s.instances iid
    refine ⟨hnd.erase iid, ?_, ?_, ?_⟩
    · intro i hi
      obtain ⟨hne, hi'⟩ := (List.Nodup.mem_erase_iff hnd).mp hi
      obtain ⟨hlt2, hocc2⟩ := hpt i hi'
      refine ⟨hlen ▸ hlt2, ?_⟩
      rw [dungeon_run_get_ne s iid t i hlt2 hne]
      exact hocc2
    · have hstep1 : occupiedCount (dungeon_run_update s iid t).instances + 1
          = occupiedCount s.instances :=
        occupiedCount_modify_free _ s.instances iid hlt hocc rfl
      show occupiedCount (dungeon_run_update s iid t).instances
        = (s.pending.erase iid).length
      omega
    · show s.active_parties - 1 = ((s.pending.erase iid).length : Int)
      rw [hac, herase]
      omega

theorem reachable_poolInv {s : SimState} (hr : Reachable s) : PoolInv s := by
  induction hr with
  | init n t h d => exact poolInv_init n t h d
  | step _ hstep ih => exact poolInv_step ih hstep

/-- C5: in every reachable state the number of Occupied instances in the
pool equals `active_parties`; both the formation and the completion step
preserve this equality. -/
theorem occupied_eq_active (s : SimState) (hr : Reachable s) :
    (occupiedCount s.instances : Int) = s.active_parties := by
  obtain ⟨_, _, hoc, hac⟩ := reachable_poolInv hr
  rw [hoc, hac]

theorem occupied_eq_active_witness :
    (occupiedCount (initState 2 2 2 6).instances : Int)
      = (initState 2 2 2 6).active_parties :=
  occupied_eq_active _ (Reachable.init 2 2 2 6)

/-- C7: once `can_form_party()` is false in a reachable state it stays
false across every further operation: a formation step is not even enabled,
and a completion never increases any supply counter. -/
theorem canForm_stays_unsat (s s' : SimState) (hr : Reachable s)
    (hstep : Step s s') (h : can_form_party s = false) :
    can_form_party s' = false := by
  cases hstep with
  | assign hcan hff =>
    rw [hcan] at h
    cases h
  | release iid t hmem =>
    exact h

theorem canForm_stays_unsat_witness :
    Reachable (form_party (initState 1 1 1 3)
        (find_free_instance (initState 1 1 1 3).instances).toNat) ∧
    can_form_party (form_party (initState 1 1 1 3)
        (find_free_instance (initState 1 1 1 3).instances).toNat) = false ∧
    can_form_party (dungeon_run_update (form_party (initState 1 1 1 3)
        (find_free_instance (initState 1 1 1 3).instances).toNat) 0 2) = false := by
  have hr : Reachable (form_party (initState 1 1 1 3)
      (find_free_instance (initState 1 1 1 3).instances).toNat) :=
    Reachable.step (Reachable.init 1 1 1 3)
      (Step.assign (initState 1 1 1 3) (by decide) (by decide))
  have hstep : Step (form_party (initState 1 1 1 3)
      (find_free_instance (initState 1 1 1 3).instances).toNat)
      (dungeon_run_update (form_party (initState 1 1 1 3)
        (find_free_instance (initState 1 1 1 3).instances).toNat) 0 2) :=
    Step.release _ 0 2 (by decide)
  exact ⟨hr, by decide, canForm_stays_unsat _ _ hr hstep (by decide)⟩

/-- C10: every instance of the freshly built pool of size `n` starts with
status `"empty"`, id equal to its position, and zero statistics; on any
non-empty fresh pool `find_free_instance` returns `0`. -/
theorem initInstances_spec (n : Nat) :
    (∀ i, (hi : i < n) → ∃ h : i < (initInstances n).length,
      (initInstances n).get ⟨i, h⟩
        = { id := (i : Int), status := "empty",
            parties_served := 0, total_time_served := 0 }) ∧
    (0 < n → find_free_instance (initInstances n) = 0) := by
  have hlen : (initInstances n).length = n := by
    rw [initInstances, List.length_map, List.length_range]
  have hget : ∀ i, (hi : i < n) → ∃ h : i < (initInstances n).length,
      (initInstances n).get ⟨i, h⟩
        = { id := (i : Int), status := "empty",
            parties_served := 0, total_time_served := 0 } := by
    intro i hi
    refine ⟨by rw [hlen]; exact hi, ?_⟩
    simp only [initInstances, List.get_eq_getElem, List.getElem_map,
      List.getElem_range]
    rfl
  refine ⟨hget, fun hn => ?_⟩
  obtain ⟨h0, hg0⟩ := hget 0 hn
  have hfree : ((initInstances n).get ⟨0, h0⟩).isFree = true := by
    rw [hg0]
    rfl
  exact find_free_at (initInstances n) 0 h0 hfree
    (fun m hm => absurd hm (Nat.not_lt_zero m))

theorem initInstances_spec_witness :
    (∃ h : 1 < (initInstances 2).length,
      (initInstances 2).get ⟨1, h⟩
        = { id := 1, status := "empty",
            parties_served := 0, total_time_served := 0 }) ∧
    find_free_instance (initInstances 2) = 0 :=
  ⟨(initInstances_spec 2).1 1 (by decide), (initInstances_spec 2).2 (by decide)⟩
